import Mathlib

/-!
Verification of the LDAP→SQL translator of sql2ldap (`src/ldap_session.rs`,
`src/config.rs`) against its natural-language specification.

The Rust code is shallowly embedded: strings are Lean `String`s, the
`HashMap`-backed attribute map is an association list of
`(attr_lower, attr, col)` triples, mutation of the accumulated query string
and binding vector is explicit state passing, and `unwrap` calls on `Option`
are modelled by `Option`-returning functions (`none` = panic).

Rust's `to_ascii_lowercase` is embedded as a character map that lowers only
the ASCII range (`lowerChar`); the configured suffix is lowered with
`to_lowercase` in the source, which agrees with it on ASCII input.  Byte
slicing of the base DN is embedded as character slicing, which coincides on
ASCII input.  `str::replace` with the one-character patterns `"%"` and `"_"`
is embedded as per-character substitution, and `format!("${}", n)` as `"$"`
followed by the decimal digits of `n` (`decChars`, whose correctness as a
decimal printer is proved in `decParse_decChars`).
-/

/-- ASCII lowercasing of a single character, as Rust's `to_ascii_lowercase`. -/
def lowerChar (c : Char) : Char :=
  if 65 ≤ c.toNat ∧ c.toNat ≤ 90 then Char.ofNat (c.toNat + 32) else c

/-- ASCII lowercasing of a string (`str::to_ascii_lowercase`). -/
def strLower (s : String) : String := ⟨s.data.map lowerChar⟩

/-- The decimal digit character for `d < 10`. -/
def digitCh (d : Nat) : Char := Char.ofNat (48 + d)

/-- Fuel-driven most-significant-first decimal digit list of `n`. -/
def decCharsAux (fuel n : Nat) : List Char :=
  match fuel with
  | 0 => []
  | fuel + 1 => if n = 0 then [] else decCharsAux fuel (n / 10) ++ [digitCh (n % 10)]

/-- Decimal digit characters of `n` (empty for `0`; the translator only
prints positive numbers).  Embeds the numeric part of `format!("${}", n)`. -/
def decChars (n : Nat) : List Char := decCharsAux n n

/-- Decimal rendering of `n` as a string. -/
def decStr (n : Nat) : String := ⟨decChars n⟩

/-- Parse a digit list back into a number; used to certify `decChars`. -/
def decParse (l : List Char) (acc : Nat) : Nat :=
  l.foldl (fun a c => 10 * a + (c.toNat - 48)) acc

/-- Replace every occurrence of the character `c` by the character list `r`;
embeds Rust `str::replace` for a one-character pattern. -/
def replaceCharList (c : Char) (r : List Char) : List Char → List Char
  | [] => []
  | x :: xs => (if x = c then r else [x]) ++ replaceCharList c r xs

/-- The `sanitize` closure of `build_filter_inner`: replace `%` by `\%`,
then `_` by `\_`. -/
def sanitize (s : String) : String :=
  ⟨replaceCharList '_' ['\\', '_'] (replaceCharList '%' ['\\', '%'] s.data)⟩

/-- Join strings with `", "`, as `Vec::join` in `build_select`. -/
def joinComma : List String → String
  | [] => ""
  | [x] => x
  | x :: xs => x ++ ", " ++ joinComma xs

/-- Split a character list at every `'='`, as Rust `str::split("=")`. -/
def splitEq : List Char → List (List Char)
  | [] => [[]]
  | c :: rest =>
    let r := splitEq rest
    if c = '=' then [] :: r
    else
      match r with
      | [] => [[c]]
      | x :: xs => (c :: x) :: xs

/-- Whether `t` is a suffix of `s`, as Rust `str::ends_with`. -/
def strEndsWith (s t : String) : Bool := t.data.isSuffixOf s.data

/-- The attribute map of `config.rs` (`Mappings`): entries
`(attr_lower, attr, col)` keyed by the lowercased attribute name. -/
abbrev Mappings := List (String × String × String)

/-- `Mappings::get`: look the attribute up by its lowercased name and return
the `(attr_lower, attr, col)` triple. -/
def Mappings.get (m : Mappings) (attr : String) : Option (String × String × String) :=
  m.find? (fun e => e.1 == strLower attr)

/-- `Mappings::insert`: store `(attr, col)` keyed by `lowercase(attr)`,
replacing an existing entry with the same key (`HashMap::insert`). -/
def Mappings.insert (m : Mappings) (attr col : String) : Mappings :=
  if m.any (fun e => e.1 == strLower attr) then
    m.map (fun e => if e.1 = strLower attr then (strLower attr, attr, col) else e)
  else
    m ++ [(strLower attr, attr, col)]

/-- Build the attribute map from the configured `(attribute, column)` pairs,
as the deserializer of `config.rs` does with repeated `insert`s. -/
def mkMappings (es : List (String × String)) : Mappings :=
  es.foldl (fun m p => m.insert p.1 p.2) []

/-- The `LdapFilter::Substring` payload (`LdapSubstringFilter`). -/
structure SubFilter where
  initial : Option String
  any : List String
  final_ : Option String
deriving DecidableEq

/-- The LDAP filter tree (`ldap3_server::proto::LdapFilter`); exactly the
variants matched by `build_filter_inner`. -/
inductive LdapFilter where
  | And (fs : List LdapFilter)
  | Or (fs : List LdapFilter)
  | Not (f : LdapFilter)
  | Equality (attr value : String)
  | Substring (attr : String) (sub : SubFilter)
  | Present (attr : String)

/-- The `get_mapping` closure: the column of the attribute, or the SQL
empty-string literal for an unknown attribute. -/
def colOf (m : Mappings) (attr : String) : String :=
  match m.get attr with
  | some e => e.2.2
  | none => "''"

/-- The `get_token` closure: `$` followed by `bindings.len() + 1`. -/
def getToken (bindings : List String) : String := "$" ++ decStr (bindings.length + 1)

/-- The LIKE pattern assembled by the `Substring` arm of
`build_filter_inner` from `initial`, `any` and `final_`. -/
def substringPattern (sub : SubFilter) : String :=
  let s0 := match sub.initial with | some s => sanitize s ++ "%" | none => ""
  let s1 := if s0 = "" ∧ sub.any ≠ [] then s0 ++ "%" else s0
  let s2 := sub.any.foldl (fun acc s => acc ++ sanitize s ++ "%") s1
  s2 ++ (match sub.final_ with | some s => sanitize s | none => "")

mutual
/-- `build_filter_inner`: append the SQL fragment of `f` to `query` and its
values to `bindings`.  The `Err` paths of the source are unreachable for the
modelled variants (unknown attributes fall back to `''`, and the wildcard
arm is marked `unreachable_patterns`), so the result is a plain pair. -/
def buildFilterInner (m : Mappings) (f : LdapFilter) (query : String) (bindings : List String) :
    String × List String :=
  match f with
  | .And fs => joinFilterGroup m fs "AND " query bindings
  | .Or fs => joinFilterGroup m fs "OR " query bindings
  | .Not g =>
    let p := buildFilterInner m g (query ++ "(NOT ") bindings
    (p.1 ++ ") ", p.2)
  | .Equality attr value =>
    (query ++ "LOWER(" ++ colOf m attr ++ ") = LOWER(" ++ getToken bindings ++ ") ",
      bindings ++ [sanitize value])
  | .Substring attr sub =>
    (query ++ "LOWER(" ++ colOf m attr ++ ") LIKE LOWER(" ++ getToken bindings ++ ") ",
      bindings ++ [substringPattern sub])
  | .Present attr =>
    (query ++ colOf m attr ++ " <> '' ", bindings)

/-- The `join_filter_group` closure: parenthesize a non-empty group and
separate the translated children by `sep`; an empty group emits nothing. -/
def joinFilterGroup (m : Mappings) (fs : List LdapFilter) (sep : String) (query : String)
    (bindings : List String) : String × List String :=
  match fs with
  | [] => (query, bindings)
  | f :: rest =>
    let p := buildFilterInner m f (query ++ "(") bindings
    let q := joinFilterRest m rest sep p.1 p.2
    (q.1 ++ ") ", q.2)

/-- The loop of `join_filter_group` after its first child: prepend `sep`
before each remaining child. -/
def joinFilterRest (m : Mappings) (fs : List LdapFilter) (sep : String) (query : String)
    (bindings : List String) : String × List String :=
  match fs with
  | [] => (query, bindings)
  | f :: rest =>
    let p := buildFilterInner m f (query ++ sep) bindings
    joinFilterRest m rest sep p.1 p.2
end

/-- `build_filter`: translate the whole filter starting from `"WHERE "`. -/
def buildFilter (m : Mappings) (f : LdapFilter) : String × List String :=
  buildFilterInner m f "WHERE " []

mutual
/-- Replace every client-supplied value in a filter by a fixed default,
keeping the tree shape and the attribute names. -/
def eraseValues : LdapFilter → LdapFilter
  | .And fs => .And (eraseValuesList fs)
  | .Or fs => .Or (eraseValuesList fs)
  | .Not f => .Not (eraseValues f)
  | .Equality attr _ => .Equality attr ""
  | .Substring attr _ => .Substring attr ⟨none, [], none⟩
  | .Present attr => .Present attr

/-- `eraseValues` on every element of a list of filters. -/
def eraseValuesList : List LdapFilter → List LdapFilter
  | [] => []
  | f :: fs => eraseValues f :: eraseValuesList fs
end

/-- The requested attributes that resolve in the map, in request order
(the loop of `build_select` keeps exactly the `Some` lookups). -/
def resolvedAttrs (m : Mappings) (attrs : List String) : List (String × String × String) :=
  attrs.filterMap (fun a => Mappings.get m a)

/-- `build_select`: the projection list.  `none` models the panic of
`mappings.get("cn").unwrap()` when the map lacks a `cn` entry. -/
def buildSelect (m : Mappings) (attrs : List String) : Option String :=
  if 0 < attrs.length ∧ ¬ "*" ∈ attrs then
    if (resolvedAttrs m attrs).any (fun e => e.1 == "cn") then
      some ("SELECT " ++
        joinComma ((resolvedAttrs m attrs).map (fun e => e.2.2 ++ " AS " ++ e.1)) ++ " ")
    else
      match Mappings.get m "cn" with
      | some e => some ("SELECT " ++
          joinComma ((resolvedAttrs m attrs).map (fun e => e.2.2 ++ " AS " ++ e.1) ++
            [e.2.2 ++ " AS cn"]) ++ " ")
      | none => none
  else
    some ("SELECT " ++ joinComma (m.map (fun e => e.2.2 ++ " AS " ++ e.1)) ++ " ")

/-- The leaf-lookup WHERE clause of `do_search` (`cn_base_search` branch):
`WHERE <cn column> = $1` with the cn value as single binding.  `none` models
the panic of `mappings.get("cn").unwrap()`. -/
def leafFilter (m : Mappings) (cn : String) : Option (String × List String) :=
  (m.get "cn").map (fun e => ("WHERE " ++ e.2.2 ++ " = $1 ", [cn]))

/-- Modelled from the spec: the `LIMIT` handling of the sizelimit-aware
`do_search` is not under `src/` (main.rs passes `search_sizelimit` to a
two-argument `do_search` that is absent from `src/ldap_session.rs`); per the
spec, `sizelimit > 0` appends `LIMIT <n>` to the assembled query. -/
def appendLimit (q : String) (sizelimit : Nat) : String :=
  if 0 < sizelimit then q ++ "LIMIT " ++ decStr sizelimit else q

/-- The SQL query and bindings assembled by `do_search` once tree discovery
decided to hit the database: `SELECT ... FROM <table> <WHERE> [LIMIT n]`.
`cnSearch` is `cn_base_search`; `none` models a panicking `unwrap`. -/
def doSearchSql (m : Mappings) (table : String) (attrs : List String) (f : LdapFilter)
    (cnSearch : Option String) (sizelimit : Nat) : Option (String × List String) :=
  match buildSelect m attrs with
  | none => none
  | some sel =>
    match (match cnSearch with
           | some cn => leafFilter m cn
           | none => some (buildFilter m f)) with
    | none => none
    | some p => some (appendLimit (sel ++ "FROM " ++ table ++ " " ++ p.1) sizelimit, p.2)

/-- LDAP search scopes (`LdapSearchScope`). -/
inductive Scope where
  | base
  | oneLevel
  | subtree
deriving DecidableEq

/-- LDAP result codes used by the modelled paths. -/
inductive ResultCode where
  | success
  | noSuchObject
  | invalidCredentials
  | operationsError
  | other
deriving DecidableEq

/-- A synthesized LDAP search result entry. -/
structure Entry where
  dn : String
  attributes : List (String × List String)
deriving DecidableEq

/-- Outcome of the tree-discovery phase of `do_search` (lines 79-128):
either an immediate reply (entries or error, no SQL), a single-object
cn lookup, or a filtered scan of the table. -/
inductive SearchPlan where
  | replyEntries (es : List Entry)
  | replyError (code : ResultCode) (msg : String)
  | leafLookup (cn : String)
  | scan
deriving DecidableEq

/-- The identifier sliced off the lowercased base ahead of `,<suffix>`:
`base_lower[0 .. len - suffix_len - 1]` of `do_search` (byte slicing,
embedded as character slicing). -/
def identOf (base_lower suffix_lower : String) : String :=
  ⟨base_lower.data.take (base_lower.data.length - suffix_lower.data.length - 1)⟩

/-- `ident.split("=").take(3).collect()` of `do_search`. -/
def identSplit (ident : String) : List String :=
  ((splitEq ident.data).map (fun l => (⟨l⟩ : String))).take 3

/-- The leaf-probe branch of `do_search` (lines 115-124): reject an
identifier that contains a comma, has not exactly two `=`-parts, or whose
first part is not `cn`; otherwise look the second part up as the cn. -/
def leafProbe (base_lower suffix_lower : String) : SearchPlan :=
  if (identOf base_lower suffix_lower).data.contains ',' ∨
      (identSplit (identOf base_lower suffix_lower)).length ≠ 2 ∨
      (identSplit (identOf base_lower suffix_lower)).headD "" ≠ "cn" then
    .replyError .noSuchObject ""
  else
    .leafLookup ((identSplit (identOf base_lower suffix_lower)).getD 1 "")

/-- The tree-discovery phase of `do_search`: classify the search base
against the configured suffix. -/
def classify (suffix : String) (scope : Scope) (base : String) : SearchPlan :=
  if scope = Scope.base then
    if base = "" then
      .replyEntries [⟨"", [("objectClass", ["top"]), ("namingContexts", [suffix])]⟩]
    else if strLower base = strLower suffix then
      .replyEntries [⟨suffix, [("objectClass", ["organization"]), ("entryDN", [suffix])]⟩]
    else if strEndsWith (strLower base) ("," ++ strLower suffix) then
      leafProbe (strLower base) (strLower suffix)
    else
      .scan
  else if strLower base ≠ strLower suffix then
    .replyError .noSuchObject ""
  else
    .scan

/-- Whether a plan proceeds to the SQL backend. -/
def issuesSql : SearchPlan → Bool
  | .leafLookup _ => true
  | .scan => true
  | _ => false

/-- An LDAP message produced by `do_search` before any SQL runs. -/
inductive LdapMsg' where
  | searchEntry (e : Entry)
  | searchDone (code : ResultCode) (msg : String)
deriving DecidableEq

/-- The messages `do_search` returns without touching SQL: synthesized
entries followed by `success`, or a terminal error; `none` when the plan
proceeds to the database. -/
def treeMessages : SearchPlan → Option (List LdapMsg')
  | .replyEntries es => some (es.map .searchEntry ++ [.searchDone .success ""])
  | .replyError c msg => some [.searchDone c msg]
  | _ => none

/-- Per-connection session state (`LdapSession`): the bound DN and whether a
SQL connection is held. -/
structure Session where
  dn : String
  hasConnection : Bool
deriving DecidableEq

/-- The reply of `do_bind`. -/
inductive BindReply where
  | success
  | invalidCredentials
  | opError (msg : String)
deriving DecidableEq

/-- `do_bind`: anonymous binds set the DN to `"Anonymous"` and connect to
the backend (`connectOk` is the outcome of `PgConnection::connect_with`);
everything else is `invalidCredentials`. -/
def doBind (s : Session) (dn pw : String) (connectOk : Bool) : Session × BindReply :=
  if dn = "" ∧ pw = "" then
    let s' : Session := { s with dn := "Anonymous" }
    if connectOk then ({ s' with hasConnection := true }, .success)
    else (s', .opError "Could not connect to backend")
  else
    (s, .invalidCredentials)

/-- One step of the placeholder scanner: outside a placeholder (`none`) a
`$` opens one; inside (`some run`) digits extend the run and any other
character closes it, emitting the collected digit run. -/
def phStep (s : Option (List Char) × List (List Char)) (c : Char) :
    Option (List Char) × List (List Char) :=
  match s.1 with
  | none => if c = '$' then (some [], s.2) else (none, s.2)
  | some run =>
    if c.isDigit then (some (run ++ [c]), s.2)
    else if c = '$' then (some [], s.2 ++ [run])
    else (none, s.2 ++ [run])

/-- Run the placeholder scanner over a character list. -/
def phRun (l : List Char) (s : Option (List Char) × List (List Char)) :
    Option (List Char) × List (List Char) :=
  l.foldl phStep s

/-- The digit runs of the `$`-placeholders of `s`, in order of occurrence.
The clause `... $12 ...` contributes the run `['1', '2']`. -/
def phTokens (s : String) : List (List Char) :=
  match phRun s.data (none, []) with
  | (none, out) => out
  | (some run, out) => out ++ [run]

/-- The substring LIKE pattern as the specification words it: start with
`sanitize(initial) + "%"` when `initial` is present; prepend `"%"` when the
pattern is still empty and `any` is non-empty; append `sanitize(element) +
"%"` for each element of `any`; append `sanitize(final)` when present. -/
def substringPatternSpec (sub : SubFilter) : String :=
  let step1 := match sub.initial with | some s => sanitize s ++ "%" | none => ""
  let step2 := if step1 = "" ∧ sub.any ≠ [] then "%" ++ step1 else step1
  let step3 := sub.any.foldl (fun acc s => acc ++ sanitize s ++ "%") step2
  step3 ++ (match sub.final_ with | some s => sanitize s | none => "")

/-- No character of `s` equals `c`; used to state that configured column
names are free of `$`. -/
abbrev charFree (c : Char) (s : String) : Prop := ∀ x ∈ s.data, x ≠ c

/-- Every column of the map is free of `$`, so placeholders in the emitted
clause come only from `get_token`. -/
abbrev dollarFreeCols (m : Mappings) : Prop := ∀ e ∈ m, charFree '$' e.2.2

/-!
General lemmas about the placeholder scanner and the decimal printer.
-/

theorem phRun_append (a b : List Char) (s : Option (List Char) × List (List Char)) :
    phRun (a ++ b) s = phRun b (phRun a s) :=
  List.foldl_append phStep s a b

theorem phRun_nodollar {l : List Char} (h : ∀ x ∈ l, x ≠ '$') (out : List (List Char)) :
    phRun l (none, out) = (none, out) := by
  induction l with
  | nil => rfl
  | cons c cs ih =>
    have hc : c ≠ '$' := h c (by simp)
    show phRun cs (phStep (none, out) c) = (none, out)
    have : phStep (none, out) c = (none, out) := by simp [phStep, hc]
    rw [this]
    exact ih (fun x hx => h x (by simp [hx]))

theorem phRun_digits {l : List Char} (h : ∀ x ∈ l, x.isDigit = true) :
    ∀ run out, phRun l (some run, out) = (some (run ++ l), out) := by
  induction l with
  | nil => intro run out; simp [phRun]
  | cons c cs ih =>
    intro run out
    have hc : c.isDigit = true := h c (by simp)
    show phRun cs (phStep (some run, out) c) = _
    have hs : phStep (some run, out) c = (some (run ++ [c]), out) := by simp [phStep, hc]
    rw [hs, ih (fun x hx => h x (by simp [hx]))]
    simp

theorem phRun_endRun {c : Char} (hd : c.isDigit = false) (hc : c ≠ '$') {l : List Char}
    (h : ∀ x ∈ l, x ≠ '$') (run : List Char) (out : List (List Char)) :
    phRun (c :: l) (some run, out) = (none, out ++ [run]) := by
  show phRun l (phStep (some run, out) c) = _
  have hs : phStep (some run, out) c = (none, out ++ [run]) := by simp [phStep, hd, hc]
  rw [hs]
  exact phRun_nodollar h (out ++ [run])

theorem phRun_dollar (out : List (List Char)) :
    phRun ['$'] (none, out) = (some [], out) := by
  simp [phRun, phStep]

theorem digitCh_isDigit {d : Nat} (h : d < 10) : (digitCh d).isDigit = true := by
  interval_cases d <;> decide

theorem digitCh_toNat {d : Nat} (h : d < 10) : (digitCh d).toNat = 48 + d := by
  interval_cases d <;> decide

theorem decCharsAux_digits (fuel : Nat) :
    ∀ n, ∀ c ∈ decCharsAux fuel n, c.isDigit = true := by
  induction fuel with
  | zero => intro n c hc; simp [decCharsAux] at hc
  | succ fuel ih =>
    intro n c hc
    by_cases hn : n = 0
    · simp [decCharsAux, hn] at hc
    · rw [decCharsAux, if_neg hn] at hc
      rcases List.mem_append.mp hc with h | h
      · exact ih _ c h
      · have : c = digitCh (n % 10) := by simpa using h
        subst this
        exact digitCh_isDigit (Nat.mod_lt _ (by omega))

theorem decChars_digits (n : Nat) : ∀ c ∈ decChars n, c.isDigit = true :=
  decCharsAux_digits n n

theorem decParse_aux (fuel : Nat) :
    ∀ n acc, n ≤ fuel →
      decParse (decCharsAux fuel n) acc = acc * 10 ^ (decCharsAux fuel n).length + n := by
  induction fuel with
  | zero =>
    intro n acc hn
    have : n = 0 := by omega
    subst this
    simp [decCharsAux, decParse]
  | succ fuel ih =>
    intro n acc hn
    by_cases hz : n = 0
    · subst hz; simp [decCharsAux, decParse]
    · rw [decCharsAux, if_neg hz]
      have hdiv : n / 10 ≤ fuel := by
        have : n / 10 < n := Nat.div_lt_self (by omega) (by omega)
        omega
      have hlt : n % 10 < 10 := Nat.mod_lt _ (by omega)
      unfold decParse
      rw [List.foldl_append]
      have hrec := ih (n / 10) acc hdiv
      unfold decParse at hrec
      rw [hrec]
      simp only [List.foldl, List.length_append, List.length_cons, List.length_nil]
      rw [digitCh_toNat hlt]
      have hmod : 48 + n % 10 - 48 = n % 10 := by omega
      rw [hmod]
      have hdm : 10 * (n / 10) + n % 10 = n := Nat.div_add_mod n 10
      rw [pow_succ]
      ring_nf
      omega

theorem decParse_decChars (n : Nat) : decParse (decChars n) 0 = n := by
  have h := decParse_aux n n 0 (le_refl n)
  unfold decChars
  rw [h]
  ring

theorem range1_append (s a b : Nat) :
    List.range' s a ++ List.range' (s + a) b = List.range' s (a + b) := by
  have h := List.range'_append s a b 1
  rw [Nat.one_mul, Nat.add_comm b a] at h
  exact h

theorem colOf_nodollar {m : Mappings} (hm : dollarFreeCols m) (attr : String) :
    ∀ x ∈ (colOf m attr).data, x ≠ '$' := by
  unfold colOf
  cases hget : m.get attr with
  | none => decide
  | some e =>
    intro x hx
    have he : e ∈ m := List.mem_of_find?_eq_some hget
    exact hm e he x hx

theorem phRun_tokenFragment (pre col mid : String) (k : Nat)
    (hpre : ∀ x ∈ pre.data, x ≠ '$') (hcol : ∀ x ∈ col.data, x ≠ '$')
    (hmid : ∀ x ∈ mid.data, x ≠ '$') (out : List (List Char)) :
    phRun (pre ++ col ++ mid ++ ("$" ++ decStr k) ++ ") ").data (none, out) =
      (none, out ++ [decChars k]) := by
  simp only [String.data_append, phRun_append]
  rw [phRun_nodollar hpre, phRun_nodollar hcol, phRun_nodollar hmid]
  have hds : (decStr k).data = decChars k := rfl
  rw [hds, phRun_dollar, phRun_digits (decChars_digits k)]
  rw [phRun_endRun (by decide) (by decide) (by decide)]
  simp

/-!
Structural specification of `build_filter_inner`: the translation appends a
fragment to the query whose placeholder digit runs are exactly the decimals
of `bindings.len()+1 .. bindings.len()+k` where `k` values were appended,
and the fragment depends on the filter only through its shape and attribute
names (the value-erased filter produces the identical fragment).
-/

mutual
theorem bfi_spec (m : Mappings) (hm : dollarFreeCols m) (f : LdapFilter) (q : String)
    (bs bs' : List String) (hlen : bs'.length = bs.length) :
    ∃ fr ns ns',
      buildFilterInner m f q bs = (q ++ fr, bs ++ ns) ∧
      buildFilterInner m (eraseValues f) q bs' = (q ++ fr, bs' ++ ns') ∧
      ns'.length = ns.length ∧
      ∀ out, phRun fr.data (none, out) =
        (none, out ++ (List.range' (bs.length + 1) ns.length).map decChars) := by
  cases f with
  | And fs =>
    obtain ⟨fr, ns, ns', h1, h2, h3, h4⟩ := jfg_spec m hm fs "AND " (by decide) q bs bs' hlen
    exact ⟨fr, ns, ns', by simpa [buildFilterInner] using h1,
      by simpa [buildFilterInner, eraseValues] using h2, h3, h4⟩
  | Or fs =>
    obtain ⟨fr, ns, ns', h1, h2, h3, h4⟩ := jfg_spec m hm fs "OR " (by decide) q bs bs' hlen
    exact ⟨fr, ns, ns', by simpa [buildFilterInner] using h1,
      by simpa [buildFilterInner, eraseValues] using h2, h3, h4⟩
  | Not g =>
    obtain ⟨fr, ns, ns', h1, h2, h3, h4⟩ := bfi_spec m hm g (q ++ "(NOT ") bs bs' hlen
    refine ⟨"(NOT " ++ (fr ++ ") "), ns, ns', ?_, ?_, h3, ?_⟩
    · simp [buildFilterInner, h1, String.append_assoc]
    · simp [buildFilterInner, eraseValues, h2, String.append_assoc]
    · intro out
      simp only [String.data_append, phRun_append]
      rw [phRun_nodollar (by decide), h4 out, phRun_nodollar (by decide)]
  | Equality attr value =>
    refine ⟨"LOWER(" ++ (colOf m attr ++ (") = LOWER(" ++ (getToken bs ++ ") "))),
      [sanitize value], [sanitize ""], ?_, ?_, rfl, ?_⟩
    · simp [buildFilterInner, String.append_assoc]
    · simp [buildFilterInner, eraseValues, getToken, hlen, String.append_assoc]
    · intro out
      have h := phRun_tokenFragment "LOWER(" (colOf m attr) ") = LOWER(" (bs.length + 1)
        (by decide) (colOf_nodollar hm attr) (by decide) out
      simp only [String.append_assoc] at h
      rw [show getToken bs = "$" ++ decStr (bs.length + 1) from rfl]
      simp only [String.append_assoc]
      rw [h]
      simp [List.range']
  | Substring attr sub =>
    refine ⟨"LOWER(" ++ (colOf m attr ++ (") LIKE LOWER(" ++ (getToken bs ++ ") "))),
      [substringPattern sub], [substringPattern ⟨none, [], none⟩], ?_, ?_, rfl, ?_⟩
    · simp [buildFilterInner, String.append_assoc]
    · simp [buildFilterInner, eraseValues, getToken, hlen, String.append_assoc]
    · intro out
      have h := phRun_tokenFragment "LOWER(" (colOf m attr) ") LIKE LOWER(" (bs.length + 1)
        (by decide) (colOf_nodollar hm attr) (by decide) out
      simp only [String.append_assoc] at h
      rw [show getToken bs = "$" ++ decStr (bs.length + 1) from rfl]
      simp only [String.append_assoc]
      rw [h]
      simp [List.range']
  | Present attr =>
    refine ⟨colOf m attr ++ " <> '' ", [], [], ?_, ?_, rfl, ?_⟩
    · simp [buildFilterInner, String.append_assoc]
    · simp [buildFilterInner, eraseValues, String.append_assoc]
    · intro out
      simp only [String.data_append, phRun_append]
      rw [phRun_nodollar (colOf_nodollar hm attr), phRun_nodollar (by decide)]
      simp [List.range']

theorem jfg_spec (m : Mappings) (hm : dollarFreeCols m) (fs : List LdapFilter) (sep : String)
    (hsep : ∀ x ∈ sep.data, x ≠ '$') (q : String) (bs bs' : List String)
    (hlen : bs'.length = bs.length) :
    ∃ fr ns ns',
      joinFilterGroup m fs sep q bs = (q ++ fr, bs ++ ns) ∧
      joinFilterGroup m (eraseValuesList fs) sep q bs' = (q ++ fr, bs' ++ ns') ∧
      ns'.length = ns.length ∧
      ∀ out, phRun fr.data (none, out) =
        (none, out ++ (List.range' (bs.length + 1) ns.length).map decChars) := by
  cases fs with
  | nil =>
    refine ⟨"", [], [], ?_, ?_, rfl, ?_⟩
    · simp [joinFilterGroup]
    · simp [joinFilterGroup, eraseValuesList]
    · intro out
      simp [phRun, List.range']
  | cons f rest =>
    obtain ⟨fr1, ns1, ns1', h1, h1e, hl1, hp1⟩ := bfi_spec m hm f (q ++ "(") bs bs' hlen
    obtain ⟨fr2, ns2, ns2', h2, h2e, hl2, hp2⟩ := jfr_spec m hm rest sep hsep
      ((q ++ "(") ++ fr1) (bs ++ ns1) (bs' ++ ns1') (by simp [hlen, hl1])
    refine ⟨"(" ++ (fr1 ++ (fr2 ++ ") ")), ns1 ++ ns2, ns1' ++ ns2', ?_, ?_, ?_, ?_⟩
    · simp only [joinFilterGroup, h1, h2]
      simp [String.append_assoc, List.append_assoc]
    · simp only [eraseValuesList, joinFilterGroup, h1e, h2e]
      simp [String.append_assoc, List.append_assoc]
    · simp [hl1, hl2]
    · intro out
      simp only [String.data_append, phRun_append]
      rw [phRun_nodollar (by decide), hp1 out]
      have hp2' := hp2 (out ++ (List.range' (bs.length + 1) ns1.length).map decChars)
      rw [hp2']
      rw [phRun_nodollar (by decide)]
      have hshift : (bs ++ ns1).length + 1 = (bs.length + 1) + ns1.length := by
        simp [List.length_append]; omega
      rw [hshift]
      rw [List.append_assoc, ← List.map_append, range1_append]
      simp [List.length_append]

theorem jfr_spec (m : Mappings) (hm : dollarFreeCols m) (fs : List LdapFilter) (sep : String)
    (hsep : ∀ x ∈ sep.data, x ≠ '$') (q : String) (bs bs' : List String)
    (hlen : bs'.length = bs.length) :
    ∃ fr ns ns',
      joinFilterRest m fs sep q bs = (q ++ fr, bs ++ ns) ∧
      joinFilterRest m (eraseValuesList fs) sep q bs' = (q ++ fr, bs' ++ ns') ∧
      ns'.length = ns.length ∧
      ∀ out, phRun fr.data (none, out) =
        (none, out ++ (List.range' (bs.length + 1) ns.length).map decChars) := by
  cases fs with
  | nil =>
    refine ⟨"", [], [], ?_, ?_, rfl, ?_⟩
    · simp [joinFilterRest]
    · simp [joinFilterRest, eraseValuesList]
    · intro out
      simp [phRun, List.range']
  | cons f rest =>
    obtain ⟨fr1, ns1, ns1', h1, h1e, hl1, hp1⟩ := bfi_spec m hm f (q ++ sep) bs bs' hlen
    obtain ⟨fr2, ns2, ns2', h2, h2e, hl2, hp2⟩ := jfr_spec m hm rest sep hsep
      ((q ++ sep) ++ fr1) (bs ++ ns1) (bs' ++ ns1') (by simp [hlen, hl1])
    refine ⟨sep ++ (fr1 ++ fr2), ns1 ++ ns2, ns1' ++ ns2', ?_, ?_, ?_, ?_⟩
    · simp only [joinFilterRest, h1, h2]
      simp [String.append_assoc, List.append_assoc]
    · simp only [eraseValuesList, joinFilterRest, h1e, h2e]
      simp [String.append_assoc, List.append_assoc]
    · simp [hl1, hl2]
    · intro out
      simp only [String.data_append, phRun_append]
      rw [phRun_nodollar hsep, hp1 out]
      have hp2' := hp2 (out ++ (List.range' (bs.length + 1) ns1.length).map decChars)
      rw [hp2']
      have hshift : (bs ++ ns1).length + 1 = (bs.length + 1) + ns1.length := by
        simp [List.length_append]; omega
      rw [hshift]
      rw [List.append_assoc, ← List.map_append, range1_append]
      simp [List.length_append]
end

/-- C1: for every filter tree built from And/Or/Not/Equality/Substring/
Present, `translate` (= `build_filter`) returns a clause that begins with
`WHERE `, whose placeholder digit runs are exactly the decimals of
`1..len(bindings)` in left-to-right order (so `bindings[i-1]` is the value
bound to `$i`, and the clause contains exactly `len(bindings)`
placeholders), and the clause is unchanged when every client-supplied value
is erased from the filter — values are never interpolated into the clause;
only mapped column names (assumed free of `$`) are. -/
theorem c1_filter_translation (m : Mappings) (hm : dollarFreeCols m) (f : LdapFilter) :
    (∃ r, (buildFilter m f).1 = "WHERE " ++ r) ∧
    phTokens (buildFilter m f).1 =
      (List.range' 1 (buildFilter m f).2.length).map decChars ∧
    (phTokens (buildFilter m f).1).map (fun l => decParse l 0) =
      List.range' 1 (buildFilter m f).2.length ∧
    (buildFilter m (eraseValues f)).1 = (buildFilter m f).1 := by
  obtain ⟨fr, ns, ns', h1, h2, hlen, hph⟩ := bfi_spec m hm f "WHERE " [] [] rfl
  have hq : buildFilter m f = ("WHERE " ++ fr, ns) := by
    unfold buildFilter
    rw [h1]
    simp
  have hq' : buildFilter m (eraseValues f) = ("WHERE " ++ fr, ns') := by
    unfold buildFilter
    rw [h2]
    simp
  have hrun : phRun ("WHERE " ++ fr).data (none, []) =
      (none, (List.range' 1 ns.length).map decChars) := by
    rw [String.data_append, phRun_append, phRun_nodollar (by decide)]
    have h := hph []
    simpa using h
  have htok : phTokens ("WHERE " ++ fr) = (List.range' 1 ns.length).map decChars := by
    unfold phTokens
    rw [hrun]
  rw [hq, hq']
  refine ⟨⟨fr, rfl⟩, htok, ?_, rfl⟩
  rw [htok, List.map_map]
  have : ∀ x ∈ List.range' 1 ns.length, ((fun l => decParse l 0) ∘ decChars) x = id x := by
    intro x _
    simp [decParse_decChars]
  rw [List.map_congr_left this, List.map_id]

/-- Witness for C1 at a concrete map and filter. -/
theorem c1_filter_translation_witness :
    (∃ r, (buildFilter [("cn", "cn", "c_name"), ("mail", "mail", "m_col")]
        (.And [.Equality "cn" "al", .Or [.Substring "mail" ⟨some "a", ["b"], none⟩,
          .Present "cn"], .Not (.Equality "zz" "q%")])).1 = "WHERE " ++ r) ∧
    phTokens (buildFilter [("cn", "cn", "c_name"), ("mail", "mail", "m_col")]
        (.And [.Equality "cn" "al", .Or [.Substring "mail" ⟨some "a", ["b"], none⟩,
          .Present "cn"], .Not (.Equality "zz" "q%")])).1 =
      (List.range' 1 (buildFilter [("cn", "cn", "c_name"), ("mail", "mail", "m_col")]
        (.And [.Equality "cn" "al", .Or [.Substring "mail" ⟨some "a", ["b"], none⟩,
          .Present "cn"], .Not (.Equality "zz" "q%")])).2.length).map decChars ∧
    (phTokens (buildFilter [("cn", "cn", "c_name"), ("mail", "mail", "m_col")]
        (.And [.Equality "cn" "al", .Or [.Substring "mail" ⟨some "a", ["b"], none⟩,
          .Present "cn"], .Not (.Equality "zz" "q%")])).1).map (fun l => decParse l 0) =
      List.range' 1 (buildFilter [("cn", "cn", "c_name"), ("mail", "mail", "m_col")]
        (.And [.Equality "cn" "al", .Or [.Substring "mail" ⟨some "a", ["b"], none⟩,
          .Present "cn"], .Not (.Equality "zz" "q%")])).2.length ∧
    (buildFilter [("cn", "cn", "c_name"), ("mail", "mail", "m_col")]
        (eraseValues (.And [.Equality "cn" "al", .Or [.Substring "mail" ⟨some "a", ["b"], none⟩,
          .Present "cn"], .Not (.Equality "zz" "q%")]))).1 =
      (buildFilter [("cn", "cn", "c_name"), ("mail", "mail", "m_col")]
        (.And [.Equality "cn" "al", .Or [.Substring "mail" ⟨some "a", ["b"], none⟩,
          .Present "cn"], .Not (.Equality "zz" "q%")])).1 :=
  c1_filter_translation [("cn", "cn", "c_name"), ("mail", "mail", "m_col")] (by decide)
    (.And [.Equality "cn" "al", .Or [.Substring "mail" ⟨some "a", ["b"], none⟩,
      .Present "cn"], .Not (.Equality "zz" "q%")])

theorem substringPattern_eq_spec (sub : SubFilter) :
    substringPattern sub = substringPatternSpec sub := by
  unfold substringPattern substringPatternSpec
  by_cases h : (match sub.initial with | some s => sanitize s ++ "%" | none => "") = "" ∧
      sub.any ≠ []
  · simp only [if_pos h]
    rw [h.1, String.empty_append, String.append_empty]
  · simp only [if_neg h]

/-- C7: the single binding of a `Substring` filter is assembled exactly as
the specification stages it (initial, conditional leading `%`, the `any`
elements, final), with `sanitize` escaping only `%` and `_`; the emitted
fragment is `LOWER(col) LIKE LOWER($k)`, and the S5 example produces the
binding `a%b\%c%d`. -/
theorem c7_substring_binding (m : Mappings) (attr : String) (sub : SubFilter) (q : String)
    (bs : List String) :
    buildFilterInner m (.Substring attr sub) q bs =
      (q ++ "LOWER(" ++ colOf m attr ++ ") LIKE LOWER(" ++ getToken bs ++ ") ",
        bs ++ [substringPatternSpec sub]) ∧
    buildFilterInner [("mail", "Mail", "mail_col")]
        (.Substring "mail" ⟨some "a", ["b%c"], some "d"⟩) "WHERE " [] =
      ("WHERE LOWER(mail_col) LIKE LOWER($1) ", ["a%b\\%c%d"]) ∧
    substringPatternSpec ⟨some "a", ["b%c"], some "d"⟩ = "a%b\\%c%d" ∧
    sanitize "b%c" = "b\\%c" ∧ sanitize "x_y" = "x\\_y" := by
  refine ⟨?_, by decide, by decide, by decide, by decide⟩
  rw [show buildFilterInner m (.Substring attr sub) q bs =
    (q ++ "LOWER(" ++ colOf m attr ++ ") LIKE LOWER(" ++ getToken bs ++ ") ",
      bs ++ [substringPattern sub]) from rfl]
  rw [substringPattern_eq_spec]

/-- C9: `And([])` and `Or([])` emit the empty string, so the translated
clause is the bare `WHERE ` with no bindings, and this string is
concatenated unchanged into the executed SQL. -/
theorem c9_empty_group (m : Mappings) (table : String) (attrs : List String) (sel : String)
    (h : buildSelect m attrs = some sel) :
    buildFilter m (.And []) = ("WHERE ", []) ∧
    buildFilter m (.Or []) = ("WHERE ", []) ∧
    doSearchSql m table attrs (.And []) none 0 =
      some (sel ++ "FROM " ++ table ++ " " ++ "WHERE ", []) ∧
    doSearchSql m table attrs (.Or []) none 0 =
      some (sel ++ "FROM " ++ table ++ " " ++ "WHERE ", []) := by
  have hA : buildFilter m (.And []) = ("WHERE ", []) := by
    simp [buildFilter, buildFilterInner, joinFilterGroup]
  have hO : buildFilter m (.Or []) = ("WHERE ", []) := by
    simp [buildFilter, buildFilterInner, joinFilterGroup]
  refine ⟨hA, hO, ?_, ?_⟩ <;>
    simp [doSearchSql, h, hA, hO, appendLimit]

/-- Witness for C9 at a concrete map and table. -/
theorem c9_empty_group_witness :
    buildFilter [("cn", "cn", "c_name")] (.And []) = ("WHERE ", []) ∧
    buildFilter [("cn", "cn", "c_name")] (.Or []) = ("WHERE ", []) ∧
    doSearchSql [("cn", "cn", "c_name")] "tbl" [] (.And []) none 0 =
      some ("SELECT c_name AS cn " ++ "FROM " ++ "tbl" ++ " " ++ "WHERE ", []) ∧
    doSearchSql [("cn", "cn", "c_name")] "tbl" [] (.Or []) none 0 =
      some ("SELECT c_name AS cn " ++ "FROM " ++ "tbl" ++ " " ++ "WHERE ", []) :=
  c9_empty_group [("cn", "cn", "c_name")] "tbl" [] "SELECT c_name AS cn " (by decide)

/-- C5: the assembled SQL query has the shape
`SELECT ... FROM <table> <WHERE>` followed by `LIMIT <n>` exactly when the
request's sizelimit `n` is positive, and without a LIMIT clause when it is
zero; this holds on both the filter path and the leaf-lookup path. -/
theorem c5_limit_shape (m : Mappings) (table : String) (attrs : List String) (f : LdapFilter)
    (n : Nat) (sel : String) (h : buildSelect m attrs = some sel) :
    doSearchSql m table attrs f none n =
      some (appendLimit (sel ++ "FROM " ++ table ++ " " ++ (buildFilter m f).1) n,
        (buildFilter m f).2) ∧
    (∀ cn e, m.get "cn" = some e →
      doSearchSql m table attrs f (some cn) n =
        some (appendLimit (sel ++ "FROM " ++ table ++ " " ++ ("WHERE " ++ e.2.2 ++ " = $1 ")) n,
          [cn])) ∧
    (∀ q : String, 0 < n → appendLimit q n = q ++ "LIMIT " ++ decStr n) ∧
    (∀ q : String, n = 0 → appendLimit q n = q) := by
  refine ⟨?_, ?_, ?_, ?_⟩
  · simp [doSearchSql, h]
  · intro cn e he
    simp [doSearchSql, h, leafFilter, he]
  · intro q hn
    simp [appendLimit, hn, String.append_assoc]
  · intro q hn
    simp [appendLimit, hn]

/-- Witness for C5 at a concrete configuration, with both a positive and a
zero sizelimit. -/
theorem c5_limit_shape_witness :
    (doSearchSql [("cn", "cn", "c_name")] "tbl" [] (.Present "cn") none 7 =
      some (appendLimit ("SELECT c_name AS cn " ++ "FROM " ++ "tbl" ++ " " ++
        (buildFilter [("cn", "cn", "c_name")] (.Present "cn")).1) 7,
        (buildFilter [("cn", "cn", "c_name")] (.Present "cn")).2)) ∧
    (doSearchSql [("cn", "cn", "c_name")] "tbl" [] (.Present "cn") none 0 =
      some (appendLimit ("SELECT c_name AS cn " ++ "FROM " ++ "tbl" ++ " " ++
        (buildFilter [("cn", "cn", "c_name")] (.Present "cn")).1) 0,
        (buildFilter [("cn", "cn", "c_name")] (.Present "cn")).2)) ∧
    appendLimit "X " 7 = "X " ++ "LIMIT " ++ decStr 7 ∧
    appendLimit "X " 0 = "X " :=
  ⟨(c5_limit_shape [("cn", "cn", "c_name")] "tbl" [] (.Present "cn") 7
      "SELECT c_name AS cn " (by decide)).1,
   (c5_limit_shape [("cn", "cn", "c_name")] "tbl" [] (.Present "cn") 0
      "SELECT c_name AS cn " (by decide)).1,
   (c5_limit_shape [("cn", "cn", "c_name")] "tbl" [] (.Present "cn") 7
      "SELECT c_name AS cn " (by decide)).2.2.1 "X " (by omega),
   (c5_limit_shape [("cn", "cn", "c_name")] "tbl" [] (.Present "cn") 0
      "SELECT c_name AS cn " (by decide)).2.2.2 "X " rfl⟩

/-- C2 counterexample: at the concrete suffix probe of scenario S3 the code
synthesizes `objectClass=organization` and `entryDN` only — no `dcObject`
class, no RDN attribute `dc=example`, no `hasSubordinates=TRUE` — refuting
the claimed attribute set. -/
theorem c2_counterexample :
    classify "dc=example,dc=com" Scope.base "dc=example,dc=com" =
      .replyEntries [⟨"dc=example,dc=com",
        [("objectClass", ["organization"]), ("entryDN", ["dc=example,dc=com"])]⟩] ∧
    (∀ a ∈ [("objectClass", ["organization"]), ("entryDN", ["dc=example,dc=com"])],
      a ≠ (("hasSubordinates", ["TRUE"]) : String × List String) ∧
      a ≠ (("objectClass", ["dcObject"]) : String × List String) ∧ a.1 ≠ "dc") ∧
    treeMessages (classify "dc=example,dc=com" Scope.base "dc=example,dc=com") =
      some [.searchEntry ⟨"dc=example,dc=com",
        [("objectClass", ["organization"]), ("entryDN", ["dc=example,dc=com"])]⟩,
        .searchDone .success ""] := by decide

/-- C2 (amended): for every Base-scope search whose lowercased base equals
the lowercased suffix, the result is a single synthesized entry with dn
equal to the suffix and attributes `objectClass=organization` and
`entryDN=<suffix>` — regardless of the suffix's first RDN type, with no
`hasSubordinates` attribute and no `other` error — followed by success; no
SQL is issued. -/
theorem c2_suffix_probe (suffix base : String) (h1 : base ≠ "")
    (h2 : strLower base = strLower suffix) :
    classify suffix Scope.base base =
      .replyEntries [⟨suffix, [("objectClass", ["organization"]), ("entryDN", [suffix])]⟩] ∧
    treeMessages (classify suffix Scope.base base) =
      some [.searchEntry ⟨suffix, [("objectClass", ["organization"]), ("entryDN", [suffix])]⟩,
        .searchDone .success ""] ∧
    issuesSql (classify suffix Scope.base base) = false := by
  have hc : classify suffix Scope.base base =
      .replyEntries [⟨suffix, [("objectClass", ["organization"]), ("entryDN", [suffix])]⟩] := by
    unfold classify
    rw [if_pos rfl, if_neg h1, if_pos h2]
  exact ⟨hc, by rw [hc]; rfl, by rw [hc]; rfl⟩

/-- Witness for the amended C2 at a mixed-case base. -/
theorem c2_suffix_probe_witness :
    classify "dc=example,dc=com" Scope.base "DC=Example,DC=Com" =
      .replyEntries [⟨"dc=example,dc=com",
        [("objectClass", ["organization"]), ("entryDN", ["dc=example,dc=com"])]⟩] ∧
    treeMessages (classify "dc=example,dc=com" Scope.base "DC=Example,DC=Com") =
      some [.searchEntry ⟨"dc=example,dc=com",
        [("objectClass", ["organization"]), ("entryDN", ["dc=example,dc=com"])]⟩,
        .searchDone .success ""] ∧
    issuesSql (classify "dc=example,dc=com" Scope.base "DC=Example,DC=Com") = false :=
  c2_suffix_probe "dc=example,dc=com" "DC=Example,DC=Com" (by decide) (by decide)

/-- C3 counterexample: a OneLevel search below the suffix gets a terminal
`noSuchObject` where the claim promises empty success, and a Base-scope
ancestor probe (the suffix ends with `",dc=com"`) falls through to a SQL
scan where the claim promises empty success without SQL. -/
theorem c3_counterexample :
    classify "dc=example,dc=com" Scope.oneLevel "ou=x,dc=example,dc=com" =
      .replyError .noSuchObject "" ∧
    treeMessages (classify "dc=example,dc=com" Scope.oneLevel "ou=x,dc=example,dc=com") =
      some [.searchDone .noSuchObject ""] ∧
    ([LdapMsg'.searchDone .noSuchObject ""] ≠ [LdapMsg'.searchDone .success ""]) ∧
    strEndsWith (strLower "dc=example,dc=com") ("," ++ strLower "dc=com") = true ∧
    classify "dc=example,dc=com" Scope.base "dc=com" = .scan ∧
    issuesSql (classify "dc=example,dc=com" Scope.base "dc=com") = true := by decide

/-- C3 (amended): a OneLevel- or Subtree-scope search whose lowercased base
differs from the lowercased suffix returns terminal `noSuchObject` with no
SQL issued (not empty success); a Base-scope search whose base matches none
of the root-DSE, suffix, or leaf patterns — including the ancestor probe —
falls through to the filtered SQL scan. -/
theorem c3_unmatched_bases (suffix base : String) (scope : Scope) :
    (scope ≠ Scope.base → strLower base ≠ strLower suffix →
      classify suffix scope base = .replyError .noSuchObject "" ∧
      treeMessages (classify suffix scope base) = some [.searchDone .noSuchObject ""] ∧
      issuesSql (classify suffix scope base) = false) ∧
    (base ≠ "" → strLower base ≠ strLower suffix →
      strEndsWith (strLower base) ("," ++ strLower suffix) = false →
      classify suffix Scope.base base = .scan ∧
      issuesSql (classify suffix Scope.base base) = true ∧
      treeMessages (classify suffix Scope.base base) = none) := by
  constructor
  · intro hs hb
    have hc : classify suffix scope base = .replyError .noSuchObject "" := by
      unfold classify
      rw [if_neg hs, if_pos hb]
    exact ⟨hc, by rw [hc]; rfl, by rw [hc]; rfl⟩
  · intro h1 h2 h3
    have hc : classify suffix Scope.base base = .scan := by
      unfold classify
      rw [if_pos rfl, if_neg h1, if_neg h2, if_neg (by rw [h3]; exact Bool.false_ne_true)]
    exact ⟨hc, by rw [hc]; rfl, by rw [hc]; rfl⟩

/-- Witness for the amended C3: one non-Base search away from the suffix
and one unmatched Base-scope search. -/
theorem c3_unmatched_bases_witness :
    (classify "dc=example,dc=com" Scope.oneLevel "ou=x,dc=example,dc=com" =
      .replyError .noSuchObject "" ∧
      treeMessages (classify "dc=example,dc=com" Scope.oneLevel "ou=x,dc=example,dc=com") =
        some [.searchDone .noSuchObject ""] ∧
      issuesSql (classify "dc=example,dc=com" Scope.oneLevel "ou=x,dc=example,dc=com") = false) ∧
    (classify "dc=example,dc=com" Scope.base "dc=other,dc=org" = .scan ∧
      issuesSql (classify "dc=example,dc=com" Scope.base "dc=other,dc=org") = true ∧
      treeMessages (classify "dc=example,dc=com" Scope.base "dc=other,dc=org") = none) :=
  ⟨(c3_unmatched_bases "dc=example,dc=com" "ou=x,dc=example,dc=com" Scope.oneLevel).1
      (by decide) (by decide),
   (c3_unmatched_bases "dc=example,dc=com" "dc=other,dc=org" Scope.base).2
      (by decide) (by decide) (by decide)⟩

/-- C4 counterexample: for the Base-scope search at `cn=,dc=example,dc=com`
the identifier splits into the two parts `cn` and `""` — the second part is
empty, which the claim says must be rejected with `noSuchObject` — yet the
code proceeds to a leaf lookup with the empty cn value as binding. -/
theorem c4_counterexample :
    classify "dc=example,dc=com" Scope.base "cn=,dc=example,dc=com" = .leafLookup "" ∧
    classify "dc=example,dc=com" Scope.base "cn=,dc=example,dc=com" ≠
      .replyError .noSuchObject "" ∧
    issuesSql (classify "dc=example,dc=com" Scope.base "cn=,dc=example,dc=com") = true ∧
    leafFilter [("cn", "cn", "c_name")] "" = some ("WHERE c_name = $1 ", [""]) := by decide

/-- C4 (amended): for every Base-scope search whose lowercased base ends
with `,` followed by the lowercased suffix, with `ident` the base prefix
before that suffix: the search returns `noSuchObject` if `ident` contains a
comma, does not split on `=` into exactly two parts, or its first part is
not `cn`; otherwise the second part — which may be empty — is the cn value,
and the executed WHERE clause is exactly the cn column compared with `= $1`
with that value as the single binding. -/
theorem c4_leaf_probe (m : Mappings) (suffix base : String)
    (h1 : base ≠ "") (h2 : strLower base ≠ strLower suffix)
    (h3 : strEndsWith (strLower base) ("," ++ strLower suffix) = true) :
    classify suffix Scope.base base = leafProbe (strLower base) (strLower suffix) ∧
    ((identOf (strLower base) (strLower suffix)).data.contains ',' = true ∨
      (identSplit (identOf (strLower base) (strLower suffix))).length ≠ 2 ∨
      (identSplit (identOf (strLower base) (strLower suffix))).headD "" ≠ "cn" →
      leafProbe (strLower base) (strLower suffix) = .replyError .noSuchObject "") ∧
    (¬((identOf (strLower base) (strLower suffix)).data.contains ',' = true ∨
        (identSplit (identOf (strLower base) (strLower suffix))).length ≠ 2 ∨
        (identSplit (identOf (strLower base) (strLower suffix))).headD "" ≠ "cn") →
      leafProbe (strLower base) (strLower suffix) =
        .leafLookup ((identSplit (identOf (strLower base) (strLower suffix))).getD 1 "") ∧
      ∀ e, Mappings.get m "cn" = some e →
        leafFilter m ((identSplit (identOf (strLower base) (strLower suffix))).getD 1 "") =
          some ("WHERE " ++ e.2.2 ++ " = $1 ",
            [(identSplit (identOf (strLower base) (strLower suffix))).getD 1 ""])) := by
  refine ⟨?_, ?_, ?_⟩
  · unfold classify
    rw [if_pos rfl, if_neg h1, if_neg h2, if_pos h3]
  · intro hbad
    unfold leafProbe
    rw [if_pos hbad]
  · intro hgood
    refine ⟨?_, ?_⟩
    · unfold leafProbe
      rw [if_neg hgood]
    · intro e he
      simp [leafFilter, he]

/-- Witness for the amended C4 at the S4 leaf lookup `cn=alice`. -/
theorem c4_leaf_probe_witness :
    classify "dc=example,dc=com" Scope.base "cn=alice,dc=example,dc=com" =
      leafProbe (strLower "cn=alice,dc=example,dc=com") (strLower "dc=example,dc=com") ∧
    (leafProbe (strLower "cn=alice,dc=example,dc=com") (strLower "dc=example,dc=com") =
      .leafLookup ((identSplit (identOf (strLower "cn=alice,dc=example,dc=com")
        (strLower "dc=example,dc=com"))).getD 1 "") ∧
     ∀ e, Mappings.get [("cn", "cn", "c_name")] "cn" = some e →
       leafFilter [("cn", "cn", "c_name")]
           ((identSplit (identOf (strLower "cn=alice,dc=example,dc=com")
             (strLower "dc=example,dc=com"))).getD 1 "") =
         some ("WHERE " ++ e.2.2 ++ " = $1 ",
           [(identSplit (identOf (strLower "cn=alice,dc=example,dc=com")
             (strLower "dc=example,dc=com"))).getD 1 ""])) :=
  ⟨(c4_leaf_probe [("cn", "cn", "c_name")] "dc=example,dc=com" "cn=alice,dc=example,dc=com"
      (by decide) (by decide) (by decide)).1,
   (c4_leaf_probe [("cn", "cn", "c_name")] "dc=example,dc=com" "cn=alice,dc=example,dc=com"
      (by decide) (by decide) (by decide)).2.2 (by decide)⟩

/-- C6 counterexample: an anonymous bind whose backend connection fails
replies `operationsError`, not success, and the session's distinguished
name has nevertheless been changed to `Anonymous`. -/
theorem c6_counterexample :
    doBind ⟨"", false⟩ "" "" false =
      (⟨"Anonymous", false⟩, .opError "Could not connect to backend") ∧
    (BindReply.opError "Could not connect to backend" ≠ .success) ∧
    ((⟨"Anonymous", false⟩ : Session) ≠ ⟨"", false⟩) := by decide

/-- C6 (amended): for every simple bind request with empty dn and password,
the distinguished name is set to `Anonymous` and the reply is success when
the backend connection succeeds; when the connection fails the reply is
`operationsError` and the distinguished name is still changed to
`Anonymous`; any other credentials get `invalidCredentials` with the
session unchanged. -/
theorem c6_bind (s : Session) (dn pw : String) (connectOk : Bool) :
    (dn = "" → pw = "" → connectOk = true →
      doBind s dn pw connectOk =
        ({ s with dn := "Anonymous", hasConnection := true }, .success)) ∧
    (dn = "" → pw = "" → connectOk = false →
      doBind s dn pw connectOk =
        ({ s with dn := "Anonymous" }, .opError "Could not connect to backend")) ∧
    (¬(dn = "" ∧ pw = "") → doBind s dn pw connectOk = (s, .invalidCredentials)) := by
  refine ⟨?_, ?_, ?_⟩
  · intro h1 h2 h3
    subst h1; subst h2; subst h3
    simp [doBind]
  · intro h1 h2 h3
    subst h1; subst h2; subst h3
    simp [doBind]
  · intro h
    simp [doBind, h]

/-- Witness for the amended C6: all three bind outcomes at concrete
inputs. -/
theorem c6_bind_witness :
    doBind ⟨"", false⟩ "" "" true = (⟨"Anonymous", true⟩, .success) ∧
    doBind ⟨"", false⟩ "" "" false =
      (⟨"Anonymous", false⟩, .opError "Could not connect to backend") ∧
    doBind ⟨"", false⟩ "u" "p" true = (⟨"", false⟩, .invalidCredentials) :=
  ⟨(c6_bind ⟨"", false⟩ "" "" true).1 rfl rfl rfl,
   (c6_bind ⟨"", false⟩ "" "" false).2.1 rfl rfl rfl,
   (c6_bind ⟨"", false⟩ "u" "p" true).2.2 (by simp)⟩

/-- C8: whenever the map has a `cn` entry, the emitted SELECT list aliases
some column as `cn`: with a non-empty request that has no `*`, every
resolving attribute is emitted as `col AS lower` in order (unknown names
silently skipped) and the cn column is appended exactly when `cn` was not
among the resolved attributes; with an empty request or a `*`, every mapped
column is projected. -/
theorem c8_cn_projection (m : Mappings) (attrs : List String) (e : String × String × String)
    (hcn : Mappings.get m "cn" = some e) :
    ∃ cols, buildSelect m attrs = some ("SELECT " ++ joinComma cols ++ " ") ∧
      (∃ c, (c ++ " AS cn") ∈ cols) ∧
      ((0 < attrs.length ∧ ¬ "*" ∈ attrs) →
        cols = (resolvedAttrs m attrs).map (fun x => x.2.2 ++ " AS " ++ x.1) ++
          (if (resolvedAttrs m attrs).any (fun x => x.1 == "cn") then []
           else [e.2.2 ++ " AS cn"])) ∧
      (¬(0 < attrs.length ∧ ¬ "*" ∈ attrs) →
        cols = m.map (fun x => x.2.2 ++ " AS " ++ x.1)) := by
  have hcn' : m.find? (fun x => x.1 == strLower "cn") = some e := hcn
  have he1 : e.1 = "cn" := by
    have hp := List.find?_some hcn'
    rw [show strLower "cn" = "cn" from by decide] at hp
    exact beq_iff_eq.mp hp
  have hem : e ∈ m := List.mem_of_find?_eq_some hcn'
  have hfmt : ∀ x : String × String × String, x.1 = "cn" →
      x.2.2 ++ " AS " ++ x.1 = x.2.2 ++ " AS cn" := by
    intro x hx
    rw [hx, String.append_assoc]
    exact congrArg (fun t => x.2.2 ++ t) (by decide)
  by_cases hcase : 0 < attrs.length ∧ ¬ "*" ∈ attrs
  · by_cases hany : (resolvedAttrs m attrs).any (fun x => x.1 == "cn") = true
    · refine ⟨(resolvedAttrs m attrs).map (fun x => x.2.2 ++ " AS " ++ x.1), ?_, ?_, ?_, ?_⟩
      · unfold buildSelect
        rw [if_pos hcase, if_pos hany]
      · obtain ⟨x, hxm, hx1⟩ := List.any_eq_true.mp hany
        refine ⟨x.2.2, List.mem_map.mpr ⟨x, hxm, hfmt x (beq_iff_eq.mp hx1)⟩⟩
      · intro _
        rw [if_pos hany, List.append_nil]
      · intro h
        exact absurd hcase h
    · refine ⟨(resolvedAttrs m attrs).map (fun x => x.2.2 ++ " AS " ++ x.1) ++
        [e.2.2 ++ " AS cn"], ?_, ?_, ?_, ?_⟩
      · unfold buildSelect
        rw [if_pos hcase, if_neg hany, hcn]
      · exact ⟨e.2.2, List.mem_append.mpr (Or.inr (by simp))⟩
      · intro _
        rw [if_neg hany]
      · intro h
        exact absurd hcase h
  · refine ⟨m.map (fun x => x.2.2 ++ " AS " ++ x.1), ?_, ?_, ?_, ?_⟩
    · unfold buildSelect
      rw [if_neg hcase]
    · exact ⟨e.2.2, List.mem_map.mpr ⟨e, hem, hfmt e he1⟩⟩
    · intro h
      exact absurd h hcase
    · intro _
      rfl

/-- Witness for C8: a request that does not mention `cn` still gets the cn
column appended, and the all-attributes case projects the whole map. -/
theorem c8_cn_projection_witness :
    (∃ cols, buildSelect [("cn", "CN", "c1"), ("mail", "Mail", "m1")] ["mail"] =
        some ("SELECT " ++ joinComma cols ++ " ") ∧
      (∃ c, (c ++ " AS cn") ∈ cols) ∧
      ((0 < (["mail"] : List String).length ∧ ¬ "*" ∈ (["mail"] : List String)) →
        cols = (resolvedAttrs [("cn", "CN", "c1"), ("mail", "Mail", "m1")] ["mail"]).map
            (fun x => x.2.2 ++ " AS " ++ x.1) ++
          (if (resolvedAttrs [("cn", "CN", "c1"), ("mail", "Mail", "m1")] ["mail"]).any
              (fun x => x.1 == "cn") then []
           else [("cn", "CN", "c1").2.2 ++ " AS cn"])) ∧
      (¬(0 < (["mail"] : List String).length ∧ ¬ "*" ∈ (["mail"] : List String)) →
        cols = [("cn", "CN", "c1"), ("mail", "Mail", "m1")].map
          (fun x => x.2.2 ++ " AS " ++ x.1))) ∧
    (∃ cols, buildSelect [("cn", "CN", "c1"), ("mail", "Mail", "m1")] [] =
        some ("SELECT " ++ joinComma cols ++ " ") ∧
      (∃ c, (c ++ " AS cn") ∈ cols) ∧
      ((0 < ([] : List String).length ∧ ¬ "*" ∈ ([] : List String)) →
        cols = (resolvedAttrs [("cn", "CN", "c1"), ("mail", "Mail", "m1")] []).map
            (fun x => x.2.2 ++ " AS " ++ x.1) ++
          (if (resolvedAttrs [("cn", "CN", "c1"), ("mail", "Mail", "m1")] []).any
              (fun x => x.1 == "cn") then []
           else [("cn", "CN", "c1").2.2 ++ " AS cn"])) ∧
      (¬(0 < ([] : List String).length ∧ ¬ "*" ∈ ([] : List String)) →
        cols = [("cn", "CN", "c1"), ("mail", "Mail", "m1")].map
          (fun x => x.2.2 ++ " AS " ++ x.1))) :=
  ⟨c8_cn_projection [("cn", "CN", "c1"), ("mail", "Mail", "m1")] ["mail"] ("cn", "CN", "c1")
      (by decide),
   c8_cn_projection [("cn", "CN", "c1"), ("mail", "Mail", "m1")] [] ("cn", "CN", "c1")
      (by decide)⟩

theorem insert_get_isSome (m : Mappings) (attr col a : String) :
    (∃ e, Mappings.get (Mappings.insert m attr col) a = some e) ↔
      (strLower attr = strLower a ∨ ∃ e, Mappings.get m a = some e) := by
  unfold Mappings.insert Mappings.get
  by_cases hmem : m.any (fun e => e.1 == strLower attr) = true
  · rw [if_pos hmem, List.find?_map]
    have hfun : ((fun x : String × String × String => x.1 == strLower a) ∘
        (fun e : String × String × String =>
          if e.1 = strLower attr then (strLower attr, attr, col) else e)) =
        (fun e : String × String × String => e.1 == strLower a) := by
      funext x
      by_cases hx : x.1 = strLower attr
      · simp [hx]
      · simp [hx]
    rw [hfun]
    constructor
    · rintro ⟨e, he⟩
      right
      cases hf : m.find? (fun e => e.1 == strLower a) with
      | none => rw [hf] at he; simp at he
      | some x => exact ⟨x, rfl⟩
    · rintro (heq | ⟨e, he⟩)
      · obtain ⟨x, hxm, hx⟩ := List.any_eq_true.mp hmem
        have hx' : (x.1 == strLower a) = true := by rw [← heq]; exact hx
        have hsome : (m.find? (fun e => e.1 == strLower a)).isSome = true :=
          List.find?_isSome.mpr ⟨x, hxm, hx'⟩
        obtain ⟨y, hy⟩ := Option.isSome_iff_exists.mp hsome
        exact ⟨_, by rw [hy]; rfl⟩
      · exact ⟨_, by rw [he]; rfl⟩
  · rw [if_neg hmem, List.find?_append]
    by_cases heq : strLower attr = strLower a
    · have hb : ((strLower attr, attr, col).1 == strLower a) = true := beq_iff_eq.mpr heq
      have hsingle : List.find? (fun e => e.1 == strLower a) [(strLower attr, attr, col)] =
          some (strLower attr, attr, col) := by
        rw [List.find?_cons, hb]
      constructor
      · intro _
        exact Or.inl heq
      · intro _
        cases hf : m.find? (fun e => e.1 == strLower a) with
        | some x => exact ⟨x, rfl⟩
        | none => exact ⟨(strLower attr, attr, col), by rw [hsingle, Option.none_or]⟩
    · have hb : ((strLower attr, attr, col).1 == strLower a) = false := by
        rw [show ((strLower attr, attr, col).1 == strLower a) =
          (strLower attr == strLower a) from rfl]
        cases hk : (strLower attr == strLower a) with
        | false => rfl
        | true => exact absurd (beq_iff_eq.mp hk) heq
      have hsingle : List.find? (fun e => e.1 == strLower a) [(strLower attr, attr, col)] =
          none := by
        rw [List.find?_cons, hb]
        rfl
      rw [hsingle, Option.or_none]
      constructor
      · rintro ⟨e, he⟩
        exact Or.inr ⟨e, he⟩
      · rintro (h | ⟨e, he⟩)
        · exact absurd h heq
        · exact ⟨e, he⟩

theorem mk_get_isSome (es : List (String × String)) :
    ∀ (m0 : Mappings) (a : String),
      (∃ e, Mappings.get (es.foldl (fun m p => Mappings.insert m p.1 p.2) m0) a = some e) ↔
        ((∃ e, Mappings.get m0 a = some e) ∨ ∃ p ∈ es, strLower p.1 = strLower a) := by
  induction es with
  | nil =>
    intro m0 a
    simp
  | cons p ps ih =>
    intro m0 a
    rw [List.foldl_cons, ih, insert_get_isSome]
    constructor
    · rintro ((heq | hm0) | ⟨q, hq, hql⟩)
      · exact Or.inr ⟨p, List.mem_cons_self p ps, heq⟩
      · exact Or.inl hm0
      · exact Or.inr ⟨q, List.mem_cons_of_mem p hq, hql⟩
    · rintro (hm0 | ⟨q, hq, hql⟩)
      · exact Or.inl (Or.inr hm0)
      · rcases List.mem_cons.mp hq with rfl | hq'
        · exact Or.inl (Or.inl hql)
        · exact Or.inr ⟨q, hq', hql⟩

theorem insert_keys {m : Mappings} {k : String} (hm : ∀ e ∈ m, e.1 ≠ k) {attr col : String}
    (ha : strLower attr ≠ k) : ∀ e ∈ Mappings.insert m attr col, e.1 ≠ k := by
  unfold Mappings.insert
  by_cases hmem : m.any (fun e => e.1 == strLower attr) = true
  · rw [if_pos hmem]
    intro e he
    obtain ⟨x, hx, hxe⟩ := List.mem_map.mp he
    by_cases hx1 : x.1 = strLower attr
    · rw [if_pos hx1] at hxe
      rw [← hxe]
      exact ha
    · rw [if_neg hx1] at hxe
      rw [← hxe]
      exact hm x hx
  · rw [if_neg hmem]
    intro e he
    rcases List.mem_append.mp he with h | h
    · exact hm e h
    · have he' : e = (strLower attr, attr, col) := by simpa using h
      rw [he']
      exact ha

theorem mk_keys (es : List (String × String)) :
    ∀ (m0 : Mappings) (k : String), (∀ e ∈ m0, e.1 ≠ k) →
      (∀ p ∈ es, strLower p.1 ≠ k) →
      ∀ e ∈ es.foldl (fun m p => Mappings.insert m p.1 p.2) m0, e.1 ≠ k := by
  induction es with
  | nil =>
    intro m0 k hm0 _
    simpa using hm0
  | cons p ps ih =>
    intro m0 k hm0 hes
    rw [List.foldl_cons]
    exact ih _ k (insert_keys hm0 (hes p (List.mem_cons_self p ps)))
      (fun q hq => hes q (List.mem_cons_of_mem p hq))

/-- C10: when the configured mapping has an entry whose lowercased key is
`cn`, the internal cn lookups (appending the cn column to a projection that
did not request it, and the leaf-lookup WHERE clause) always return `Some`,
so the `unwrap` panic is unreachable; when it lacks such an entry, those
searches hit the `None` (panic) path instead of producing an LDAP error. -/
theorem c10_cn_unwrap (es : List (String × String)) :
    ((∃ p ∈ es, strLower p.1 = "cn") →
      (∃ e, Mappings.get (mkMappings es) "cn" = some e) ∧
      (∀ v, leafFilter (mkMappings es) v ≠ none) ∧
      (∀ attrs, buildSelect (mkMappings es) attrs ≠ none)) ∧
    ((¬ ∃ p ∈ es, strLower p.1 = "cn") →
      Mappings.get (mkMappings es) "cn" = none ∧
      (∀ v, leafFilter (mkMappings es) v = none) ∧
      (∀ attrs, 0 < attrs.length → ¬ "*" ∈ attrs →
        buildSelect (mkMappings es) attrs = none)) := by
  have hiff := mk_get_isSome es [] "cn"
  have hlow : strLower "cn" = "cn" := by decide
  constructor
  · intro hex
    have hsome : ∃ e, Mappings.get (mkMappings es) "cn" = some e := by
      rw [show mkMappings es = es.foldl (fun m p => Mappings.insert m p.1 p.2) [] from rfl,
        hiff]
      right
      obtain ⟨p, hp, hpl⟩ := hex
      exact ⟨p, hp, by rw [hpl, hlow]⟩
    obtain ⟨e, he⟩ := hsome
    refine ⟨⟨e, he⟩, ?_, ?_⟩
    · intro v
      simp [leafFilter, he]
    · intro attrs
      unfold buildSelect
      by_cases hcase : 0 < attrs.length ∧ ¬ "*" ∈ attrs
      · rw [if_pos hcase]
        by_cases hany : (resolvedAttrs (mkMappings es) attrs).any (fun x => x.1 == "cn") = true
        · rw [if_pos hany]
          simp
        · rw [if_neg hany, he]
          simp
      · rw [if_neg hcase]
        simp
  · intro hnex
    have hnone : Mappings.get (mkMappings es) "cn" = none := by
      cases hf : Mappings.get (mkMappings es) "cn" with
      | none => rfl
      | some e =>
        exfalso
        apply hnex
        have hs : ∃ x, Mappings.get (mkMappings es) "cn" = some x := ⟨e, hf⟩
        rw [show mkMappings es = es.foldl (fun m p => Mappings.insert m p.1 p.2) [] from rfl,
          hiff] at hs
        rcases hs with ⟨x, hx⟩ | ⟨p, hp, hpl⟩
        · exact absurd hx (by simp [Mappings.get])
        · rw [hlow] at hpl
          exact ⟨p, hp, hpl⟩
    have hkeys : ∀ e ∈ mkMappings es, e.1 ≠ "cn" := by
      apply mk_keys es [] "cn" (by simp)
      intro p hp hpl
      exact hnex ⟨p, hp, hpl⟩
    refine ⟨hnone, ?_, ?_⟩
    · intro v
      simp [leafFilter, hnone]
    · intro attrs hlen hstar
      unfold buildSelect
      rw [if_pos ⟨hlen, hstar⟩]
      have hany : (resolvedAttrs (mkMappings es) attrs).any (fun x => x.1 == "cn") = false := by
        rw [List.any_eq_false]
        intro x hx
        obtain ⟨a, _, hget⟩ := List.mem_filterMap.mp (by simpa [resolvedAttrs] using hx)
        have hget' : (mkMappings es).find? (fun y => y.1 == strLower a) = some x := hget
        have hxm : x ∈ mkMappings es := List.mem_of_find?_eq_some hget'
        intro hb
        exact hkeys x hxm (beq_iff_eq.mp hb)
      rw [if_neg (by rw [hany]; exact Bool.false_ne_true), hnone]

/-- Witness for C10: a map configured with `CN` resolves the cn lookups; a
map configured without any cn-like key sends them to the panic path. -/
theorem c10_cn_unwrap_witness :
    ((∃ e, Mappings.get (mkMappings [("CN", "c_name")]) "cn" = some e) ∧
     (∀ v, leafFilter (mkMappings [("CN", "c_name")]) v ≠ none) ∧
     (∀ attrs, buildSelect (mkMappings [("CN", "c_name")]) attrs ≠ none)) ∧
    (Mappings.get (mkMappings [("Mail", "m_col")]) "cn" = none ∧
     (∀ v, leafFilter (mkMappings [("Mail", "m_col")]) v = none) ∧
     (∀ attrs, 0 < attrs.length → ¬ "*" ∈ attrs →
       buildSelect (mkMappings [("Mail", "m_col")]) attrs = none)) :=
  ⟨(c10_cn_unwrap [("CN", "c_name")]).1 (by decide),
   (c10_cn_unwrap [("Mail", "m_col")]).2 (by decide)⟩
